import Mathlib

/-!
Verification development for the VeriWeb task-pipeline scripts
(`src/agents/browseruse.py`, `src/agents/deepresearch.py`, `src/agents/owl.py`).

The Python sources are shallowly embedded below: pure helpers become Lean
functions; the stateful driver loops become explicit state threading; Python
floats (timestamps) are modelled as integers supplied by an external clock
oracle; fallible code returns `Except`/`Option`.  Every definition is
translated from the source files; the one exception is a definition whose doc
comment says it follows the spec's words, used only to compare code behaviour
against the specified behaviour.  Definitions come first, then all lemmas and
theorems.
-/

namespace VeriWeb

/-! ## Natural key (`natural_key` in browseruse.py lines 20-22 and owl.py lines 80-82)

Python:
  def natural_key(name: str):
      return [int(s) if s.isdigit() else s.lower()
              for s in re.split(r'(\d+)', name)]

`re.split(r'(\d+)', name)` cuts `name` at maximal digit runs and keeps the
runs, producing an alternating list `[nondigit, digits, nondigit, ..., nondigit]`
whose first and last entries may be empty strings; the text between two digit
runs contains no digit.  Digit runs are mapped to `int`, the other (digit-free,
possibly empty) runs to their lowercased text.  We model the key elements with
an inductive type; the embedding works over `List Char` (ASCII ids, matching
`Char.isDigit`).
-/

inductive NKElem where
  | str (cs : List Char)
  | num (v : Nat)
deriving DecidableEq, Repr

/-- One step of `int(s)` over a digit run: Python `int` of a decimal string. -/
def digitVal (c : Char) : Nat := c.toNat - 48

mutual

/-- State of the splitter while scanning a non-digit run; `acc` holds the run
read so far, reversed.  Mirrors `re.split(r'(\d+)', name)` followed by the
per-element mapping of `natural_key`: non-digit runs are lowercased. -/
def nkND : List Char → List Char → List NKElem
  | [], acc => [.str (acc.reverse.map Char.toLower)]
  | c :: cs, acc =>
    if c.isDigit then
      .str (acc.reverse.map Char.toLower) :: nkD cs (digitVal c)
    else
      nkND cs (c :: acc)

/-- State of the splitter while scanning a digit run; `v` is the numeric value
of the digits read so far (Python `int` on the full run, leading zeros
included). -/
def nkD : List Char → Nat → List NKElem
  | [], v => [.num v, .str []]
  | c :: cs, v =>
    if c.isDigit then
      nkD cs (10 * v + digitVal c)
    else
      .num v :: nkND cs [c]

end

/-- `natural_key(name)` from the source, over the characters of the id. -/
def naturalKey (name : String) : List NKElem := nkND name.data []

/-- Character comparison by code point, as Python compares characters inside
strings. -/
def cmpChar (a b : Char) : Ordering := compare a.toNat b.toNat

/-- Python string comparison: lexicographic by code point, a strict prefix
compares less. -/
def cmpCharList : List Char → List Char → Ordering
  | [], [] => .eq
  | [], _ :: _ => .lt
  | _ :: _, [] => .gt
  | a :: as, b :: bs =>
    match cmpChar a b with
    | .eq => cmpCharList as bs
    | o => o

/-- Comparison of two key elements.  Python compares `int` with `int`
numerically and `str` with `str` lexicographically; comparing `int` against
`str` raises `TypeError`, modelled as `none`. -/
def cmpElem : NKElem → NKElem → Option Ordering
  | .str a, .str b => some (cmpCharList a b)
  | .num a, .num b => some (compare a b)
  | .str _, .num _ => none
  | .num _, .str _ => none

/-- Python list comparison over key elements: lexicographic, a strict prefix
compares less; `none` as soon as an element comparison raises. -/
def cmpKey : List NKElem → List NKElem → Option Ordering
  | [], [] => some .eq
  | [], _ :: _ => some .lt
  | _ :: _, [] => some .gt
  | a :: as, b :: bs =>
    match cmpElem a b with
    | none => none
    | some .eq => cmpKey as bs
    | some .lt => some .lt
    | some .gt => some .gt

/-- Non-strict "sorts no later than" on keys, used to model Python's stable
`sorted`. -/
def keyLE (k1 k2 : List NKElem) : Bool :=
  match cmpKey k1 k2 with
  | some .gt => false
  | _ => true

/-- `sorted(ids, key=natural_key)` for a plain list of id strings
(Python's sort is stable; insertion sort with a non-strict order is the same
stable ascending sort). -/
def sortIds (l : List String) : List String :=
  l.insertionSort (fun a b => keyLE (naturalKey a) (naturalKey b) = true)

/-- The shape `re.split(r'(\d+)', ·)` guarantees: a key is a non-digit run,
optionally followed by a digit run and another key.  Positions of `str` and
`num` elements therefore alternate, starting with `str`. -/
inductive IsKey : List NKElem → Prop
  | single (s : List Char) : IsKey [.str s]
  | cons (s : List Char) (n : Nat) (k : List NKElem) (h : IsKey k) :
      IsKey (.str s :: .num n :: k)

/-- The tail produced while scanning a digit run: a `num` followed by a key. -/
def IsNumTail (l : List NKElem) : Prop :=
  ∃ v k, l = .num v :: k ∧ IsKey k

/-! ## deepresearch.py: task records and the retry-wrapped execution

`ResearchTask` (lines 29-39).  The timestamps returned by `time.time()` are
floats; claims about them only use presence, truthiness and subtraction, so
they are modelled as `Int`.  The unused `raw_info` payload field is omitted:
no code path reads it after construction and no output includes it. -/

structure ResearchTask where
  id : String
  prompt : String
  status : String := "pending"
  result : Option String := none
  error : Option String := none
  start_time : Option Int := none
  end_time : Option Int := none
  retry_count : Nat := 0
deriving DecidableEq, Repr

/-- A Python exception: its type name and message. -/
structure PyExc where
  ty : String
  msg : String
deriving DecidableEq, Repr

/-- The error text stored on failure (line 126):
`f"{type(e).__name__}: {str(e)}"`. -/
def errText (e : PyExc) : String := e.ty ++ ": " ++ e.msg

/-- One attempt of `_execute_research`'s body (lines 98-129): set `start_time`
and `status="processing"`, invoke the collaborator; on success fill `result`,
`status="completed"`, `end_time`; on exception fill `status="failed"`,
`error`, `end_time` and re-raise (the mutations stay on the task object).
`t1`/`t2` are the two `time.time()` readings of the attempt.  Returns the
mutated task and whether the attempt succeeded. -/
def attemptOnce (out : Except PyExc String) (t1 t2 : Int)
    (t : ResearchTask) : ResearchTask × Bool :=
  let t0 := { t with start_time := some t1, status := "processing" }
  match out with
  | .ok s =>
    ({ t0 with result := some s, status := "completed", end_time := some t2 }, true)
  | .error e =>
    ({ t0 with status := "failed", error := some (errText e), end_time := some t2 }, false)

/-- The decorator on `_execute_research` (line 85) is
`stop_after_attempt(10)` — a literal 10, not the configured
`self.max_retries`. -/
def STOP_AFTER : Nat := 10

/-- `wait_exponential(multiplier=1, min=1, max=15)`: the delay after failed
attempt `n` is `max(min, min(multiplier * 2^(n-1), max))`. -/
def waitExp (n : Nat) : Nat := max 1 (min (2 ^ (n - 1)) 15)

/-- Outcome of one call of the retry-wrapped `_execute_research`:
the final state of the (mutated) task object, the number of attempts made,
the list of back-off delays slept between attempts, and whether the wrapped
call raised.

On exhaustion tenacity invokes `retry_error_callback(retry_state)` with a
single argument; the source passes the unbound two-parameter method
`_retry_error_callback` (lines 79-83), so that invocation raises `TypeError`,
which propagates to the caller instead of the callback's `return None`.
`raised = true` models that propagated exception. -/
structure ExecResult where
  record : ResearchTask
  attempts : Nat
  waits : List Nat
  raised : Bool
deriving Repr

/-- The tenacity loop around `_execute_research`: `n` is the current attempt
number (starting at 1), `fuel` the attempts remaining before
`stop_after_attempt` fires.  The collaborator outcome of attempt `k` is
`beh k`; the `j`-th call of `time.time()` returns `times j` (attempt `k`
reads the clock twice). -/
def execAux (beh : Nat → Except PyExc String) (times : Nat → Int) :
    Nat → Nat → ResearchTask → ExecResult
  | _, 0, t => { record := t, attempts := 0, waits := [], raised := true }
  | n, fuel + 1, t =>
    let r1 := attemptOnce (beh n) (times (2 * n - 2)) (times (2 * n - 1)) t
    if r1.2 then
      { record := r1.1, attempts := 1, waits := [], raised := false }
    else if fuel = 0 then
      { record := r1.1, attempts := 1, waits := [], raised := true }
    else
      let r := execAux beh times (n + 1) fuel r1.1
      { r with attempts := r.attempts + 1, waits := waitExp n :: r.waits }

/-- `_execute_research` under its `@retry` decorator, starting at attempt 1
with `stop_after_attempt(10)`. -/
def executeResearch (beh : Nat → Except PyExc String) (times : Nat → Int)
    (t : ResearchTask) : ExecResult :=
  execAux beh times 1 STOP_AFTER t

/-- The configuration accepted by `OAISyncDeepResearch.__init__`
(lines 48-72); `main` forwards `--concurrency` and `--retries` here.  The
execution path never reads `max_retries` — the decorator's bound is the
literal in `STOP_AFTER`. -/
structure ResearchConfig where
  max_concurrent : Nat := 3
  max_retries : Nat := 10
  retry_delay : Int := 1

/-- A submitted task together with its collaborator behaviour and clock. -/
structure TaskInput where
  id : String
  prompt : String
  beh : Nat → Except PyExc String
  times : Nat → Int

/-- The `ResearchTask` constructed for a prompt entry
(`create_tasks_from_prompts`, lines 226-230): fresh pending record. -/
def initTask (ti : TaskInput) : ResearchTask :=
  { id := ti.id, prompt := ti.prompt }

/-- `process_tasks` (lines 131-163).  Each submitted task yields exactly one
appended entry: on normal return the returned task object, on a raised
exception the same (mutated) task object from `future_to_task` — both are the
final state of the record.  `as_completed` yields futures in completion
order, which is scheduler-dependent; the embedding collects them in
submission order, which is one admissible completion order and the only
aspect the claims below depend on (membership, one record per task). -/
def processTasks (tis : List TaskInput) : List ResearchTask :=
  tis.map fun ti => (executeResearch ti.beh ti.times (initTask ti)).record

/-- A serialized result row, as built by the dict literals in `main`
(lines 289-299 / 302-312): nine keys including `duration` and
`retry_count`. -/
structure Row where
  id : String
  prompt : String
  status : String
  result : Option String
  error : Option String
  start_time : Option Int
  end_time : Option Int
  duration : Option Int
  retry_count : Nat
deriving DecidableEq, Repr

/-- Python truthiness of an optional timestamp: `None` and `0` are falsy.
The guards `if task.start_time and task.end_time` test truthiness, not
presence. -/
def pyTruthyTime : Option Int → Bool
  | none => false
  | some v => v != 0

/-- `end_time - start_time if start_time and end_time else None`. -/
def durationOf (s e : Option Int) : Option Int :=
  if pyTruthyTime s && pyTruthyTime e then some (e.getD 0 - s.getD 0) else none

/-- The dict literal building a row from a finished task (lines 289-299). -/
def taskToRow (t : ResearchTask) : Row :=
  { id := t.id
    prompt := t.prompt
    status := t.status
    result := t.result
    error := t.error
    start_time := t.start_time
    end_time := t.end_time
    duration := durationOf t.start_time t.end_time
    retry_count := t.retry_count }

/-- `completed_task_ids` (line 268): ids of existing rows whose status is
`"completed"`. -/
def completedIds (existing : List Row) : List String :=
  (existing.filter fun r => r.status == "completed").map Row.id

/-- `pending_tasks` (line 275): tasks whose id is not among the completed ids
of the existing result file (failed and absent ids are re-run); with no
existing file the whole task list. -/
def pendingOf (existing : Option (List Row)) (tis : List TaskInput) : List TaskInput :=
  match existing with
  | none => tis
  | some ex => tis.filter fun ti => !((completedIds ex).contains ti.id)

/-- The merge in `main` (lines 288-300): keep the existing rows whose id is
not among the pending ids, then extend with all the new rows. -/
def mergeResults (existing : List Row) (pendingIds : List String)
    (newRows : List Row) : List Row :=
  (existing.filter fun r => !(pendingIds.contains r.id)) ++ newRows

/-- The `results` list `main` hands to `save_final_results` (lines 279-315):
empty when nothing is pending (line 315), otherwise the new rows, merged into
the existing ones when the output file existed.  The dataclass task objects
are always truthy, so the comprehensions' `if task` filter keeps every
record. -/
def mainResults (existing : Option (List Row)) (tis : List TaskInput) : List Row :=
  let pending := pendingOf existing tis
  if pending.isEmpty then []
  else
    let newRows := (processTasks pending).map taskToRow
    match existing with
    | some ex => mergeResults ex (pending.map TaskInput.id) newRows
    | none => newRows

/-- A JSON value of the shapes the scripts serialize. -/
inductive JVal where
  | null
  | js (v : String)
  | ji (v : Int)
deriving DecidableEq, Repr

def optS : Option String → JVal
  | none => .null
  | some v => .js v

def optI : Option Int → JVal
  | none => .null
  | some v => .ji v

/-- The object written per row by `save_final_results` (lines 189-203): a
dict literal with exactly eight keys, in source order — `retry_count` is not
among them — and `duration` recomputed from the row's truthy timestamps. -/
def finalObj (r : Row) : List (String × JVal) :=
  [("id", .js r.id),
   ("prompt", .js r.prompt),
   ("status", .js r.status),
   ("result", optS r.result),
   ("error", optS r.error),
   ("start_time", optI r.start_time),
   ("end_time", optI r.end_time),
   ("duration", optI (durationOf r.start_time r.end_time))]

/-- `save_final_results` (lines 189-208): one object per row (a non-empty
dict is truthy, so the `if task` filter keeps every row). -/
def saveFinalResults (rows : List Row) : List (List (String × JVal)) :=
  rows.map finalObj

/-- Field lookup in a serialized object. -/
def getField (o : List (String × JVal)) (k : String) : Option JVal :=
  (o.find? fun p => p.1 == k).map Prod.snd

/-- The contents of the final result file after one run of `main`:
load, filter by completed ids, process, merge, save. -/
def finalFile (existing : Option (List Row)) (tis : List TaskInput) :
    List (List (String × JVal)) :=
  saveFinalResults (mainResults existing tis)

/-- Modelled from the spec's words, for comparison only (claim C4): previous
records in their original relative order with replaced entries updated in
place (new record wins), followed by the new records whose id was absent from
previous, in completion order. -/
def specMerge (prev new : List Row) : List Row :=
  (prev.map fun r =>
    match new.find? (fun n => n.id == r.id) with
    | some n => n
    | none => r) ++
  new.filter fun n => !((prev.map Row.id).contains n.id)

/-! ## browseruse.py: the driver loop (lines 41-67)

For each task in order: compute the save directory; if it exists, skip the
task (the agent is never constructed or run); otherwise create the directory,
append the fixed suffix to the task text and run the agent on it.  The
filesystem is modelled as the list of existing directory paths; running the
agent is modelled by recording the `(folder, task text)` pair handed to
`Agent`. -/

/-- The suffix appended at line 58. -/
def BU_SUFFIX : String := "\nPlease save a markdown file (result.md) about the final answer."

/-- `save_dir = f"./result/-model-/-folder-"` (line 50). -/
def buSaveDir (modelName folder : String) : String :=
  "./result/" ++ modelName ++ "/" ++ folder

/-- Final state of a run of `main`: the directories now existing and the
agent invocations made, as `(folder, task text passed to Agent)`. -/
structure BURun where
  dirs : List String
  agentCalls : List (String × String)
deriving Repr

/-- The loop body of browseruse `main` (lines 49-67).  owl.py's `main`
(lines 995-1009) is the same skip-or-execute loop over
`./workforce-result/-model-/-folder-` without the suffix. -/
def buLoop (modelName : String) : List (String × String) → List String → BURun
  | [], dirs => { dirs := dirs, agentCalls := [] }
  | (folder, txt) :: rest, dirs =>
    let d := buSaveDir modelName folder
    if dirs.contains d then
      buLoop modelName rest dirs
    else
      let r := buLoop modelName rest (d :: dirs)
      { r with agentCalls := (folder, txt ++ BU_SUFFIX) :: r.agentCalls }

/-! ## Task-list loading (browseruse.py lines 24-39, owl.py lines 84-98)

Python:
  for item in sorted(raw_tasks, key=lambda x: natural_key(x["folder"])):
      folder_name = item.get("folder")
      instruct = item.get("instruct", "").strip()
      if not folder_name or not instruct:
          tqdm.write(...)   -- warn and drop
          continue
      tasks.append((folder_name, instruct))

`sorted` computes `x["folder"]` for every entry BEFORE any filtering: an
entry without the `"folder"` key raises `KeyError` inside the key function
and aborts the whole load.  Entries are dropped (with a warning) only when
the present folder value is falsy or the stripped instruct is empty. -/

/-- A raw task-list entry; `none` models a missing key. -/
structure RawItem where
  folderKey : Option String
  instructKey : Option String
deriving DecidableEq, Repr

/-- Python `str.strip()`: drop whitespace from both ends. -/
def pyStrip (s : String) : String :=
  ⟨((s.data.dropWhile Char.isWhitespace).reverse.dropWhile Char.isWhitespace).reverse⟩

/-- The sort key `natural_key(x["folder"])`; only evaluated under the guard
that every entry has the folder key, where `getD` is exact. -/
def rawKey (x : RawItem) : List NKElem := naturalKey (x.folderKey.getD "")

/-- `sorted(raw_tasks, key=lambda x: natural_key(x["folder"]))`. -/
def sortRaw (raw : List RawItem) : List RawItem :=
  raw.insertionSort fun a b => keyLE (rawKey a) (rawKey b) = true

/-- The body of the loading loop for one sorted entry: `none` when the entry
is dropped with a warning, otherwise the queued `(folder, stripped
instruct)`. -/
def validEntry (x : RawItem) : Option (String × String) :=
  let folder := x.folderKey.getD ""
  let instruct := pyStrip (x.instructKey.getD "")
  if folder == "" || instruct == "" then none else some (folder, instruct)

/-- The module-level task loading: `KeyError` aborts everything when any
entry lacks the folder key (raised by the sort's key function before the
filtering loop runs); otherwise the sorted, filtered queue. -/
def loadTasks (raw : List RawItem) : Except String (List (String × String)) :=
  if raw.all (fun x => x.folderKey.isSome) then
    .ok ((sortRaw raw).filterMap validEntry)
  else
    .error "KeyError: folder"

/-! ## owl.py worker sharding (lines 64-65 and 100) -/

def WORKER_ID : Nat := 1
def N_WORKERS : Nat := 10

/-- `tasks = [t for i, t in enumerate(tasks) if i % N_WORKERS == WORKER_ID]`. -/
def shardTasks {α : Type} (l : List α) : List α :=
  (l.enum.filter fun p => p.1 % N_WORKERS == WORKER_ID).map Prod.snd

/-! ## Invariant predicates and concrete scenarios used by the theorems -/

/-- Invariants of a finished record relative to the submitted record, shared
by several theorems below. -/
def RecordOK (t0 r : ResearchTask) : Prop :=
  r.id = t0.id ∧ r.prompt = t0.prompt ∧ r.retry_count = t0.retry_count ∧
  (r.status = "completed" ∨ r.status = "failed") ∧
  r.end_time.isSome = true ∧
  (r.status = "completed" → r.result.isSome = true) ∧
  (r.status = "failed" → r.error.isSome = true)

/-- A collaborator that raises on every attempt. -/
def behFail : Nat → Except PyExc String :=
  fun _ => .error { ty := "APIError", msg := "boom" }

/-- A collaborator that raises on the first attempt and succeeds on the
second. -/
def behFlaky : Nat → Except PyExc String :=
  fun n => if n = 1 then .error { ty := "RuntimeError", msg := "transient" } else .ok "answer"

/-- A concrete clock: the `k`-th reading of `time.time()` is `k`. -/
def tickClock : Nat → Int := fun k => k

/-- A concrete always-failing submitted task. -/
def tiFail : TaskInput := { id := "t1", prompt := "p", beh := behFail, times := tickClock }

/-- A concrete failed row for task `"a"` from a previous run. -/
def rowA : Row :=
  { id := "a", prompt := "pa", status := "failed", result := none,
    error := some "APIError: boom", start_time := some 1, end_time := some 2,
    duration := some 1, retry_count := 0 }

/-- A concrete completed row for task `"b"` from a previous run. -/
def rowB : Row :=
  { id := "b", prompt := "pb", status := "completed", result := some "rb",
    error := none, start_time := some 1, end_time := some 3,
    duration := some 2, retry_count := 0 }

/-- A concrete completed re-run row for task `"a"`. -/
def rowA2 : Row :=
  { id := "a", prompt := "pa", status := "completed", result := some "ra",
    error := none, start_time := some 4, end_time := some 6,
    duration := some 2, retry_count := 0 }

end VeriWeb

namespace VeriWeb

/-! ## Lemmas and theorems -/

theorem nk_shape :
    ∀ (cs : List Char),
      (∀ acc, IsKey (nkND cs acc)) ∧ (∀ v, IsNumTail (nkD cs v)) := by
  intro cs
  induction cs with
  | nil =>
    constructor
    · intro acc
      simp only [nkND]
      exact IsKey.single _
    · intro v
      exact ⟨v, [.str []], rfl, IsKey.single _⟩
  | cons c cs ih =>
    constructor
    · intro acc
      simp only [nkND]
      by_cases h : c.isDigit
      · simp only [h, if_true]
        obtain ⟨v, k, hk, hkey⟩ := ih.2 (digitVal c)
        rw [hk]
        exact IsKey.cons _ _ _ hkey
      · simp only [h, if_false]
        exact ih.1 (c :: acc)
    · intro v
      simp only [nkD]
      by_cases h : c.isDigit
      · simp only [h, if_true]
        exact ih.2 _
      · simp only [h, if_false]
        exact ⟨v, nkND cs [c], rfl, ih.1 [c]⟩

theorem naturalKey_isKey (s : String) : IsKey (naturalKey s) :=
  (nk_shape s.data).1 []

/-- Comparing two well-shaped keys never reaches the `int`-vs-`str` case:
the element types are determined by the position parity, which agrees in both
keys. -/
theorem cmpKey_total :
    ∀ (k1 k2 : List NKElem), IsKey k1 → IsKey k2 → (cmpKey k1 k2).isSome = true := by
  intro k1 k2 h1
  induction h1 generalizing k2 with
  | single s =>
    intro h2
    cases h2 with
    | single t =>
      simp only [cmpKey, cmpElem]
      cases cmpCharList s t <;> simp
    | cons t n k h =>
      simp only [cmpKey, cmpElem]
      cases cmpCharList s t <;> simp [cmpKey]
  | cons s n k h ih =>
    intro h2
    cases h2 with
    | single t =>
      simp only [cmpKey, cmpElem]
      cases cmpCharList s t <;> simp [cmpKey]
    | cons t m k' h' =>
      simp only [cmpKey, cmpElem]
      cases cmpCharList s t
      · simp
      · cases hc : compare n m
        · simp [cmpKey, cmpElem, hc]
        · simpa [cmpKey, cmpElem, hc] using ih k' h'
        · simp [cmpKey, cmpElem, hc]
      · simp

/-- C5: task ordering is by a natural key over the id — the id splits into
alternating non-digit/digit runs, digit runs compare numerically and
non-digit runs compare case-insensitively (they are lowercased in the key);
the pairwise comparison is defined for every pair of ids, so the sort (a
deterministic function) is total; and the ids `["task2", "task10", "task1"]`
sort to `["task1", "task2", "task10"]`. -/
theorem natural_key_sort_total_and_example :
    (∀ s t : String, (cmpKey (naturalKey s) (naturalKey t)).isSome = true) ∧
    (∀ m n : Nat, cmpElem (.num m) (.num n) = some (compare m n)) ∧
    (∀ a b : List Char, cmpElem (.str a) (.str b) = some (cmpCharList a b)) ∧
    sortIds ["task2", "task10", "task1"] = ["task1", "task2", "task10"] :=
  ⟨fun s t => cmpKey_total _ _ (naturalKey_isKey s) (naturalKey_isKey t),
   fun _ _ => rfl, fun _ _ => rfl, by decide⟩

/-- The execution loop never touches `id`, `prompt` or `retry_count`, always
ends in a terminal status with `end_time` set, fills `result` on completion
and `error` on failure. -/
theorem execAux_recordOK (beh : Nat → Except PyExc String) (times : Nat → Int) :
    ∀ (fuel n : Nat) (t : ResearchTask),
      RecordOK t (execAux beh times n (fuel + 1) t).record := by
  intro fuel
  induction fuel with
  | zero =>
    intro n t
    simp only [execAux]
    cases hb : beh n with
    | ok s => simp [attemptOnce, hb, RecordOK]
    | error e => simp [attemptOnce, hb, RecordOK]
  | succ f ih =>
    intro n t
    simp only [execAux]
    cases hb : beh n with
    | ok s => simp [attemptOnce, hb, RecordOK]
    | error e =>
      simp only [attemptOnce, hb]
      have h := ih (n + 1)
        { t with
          start_time := some (times (2 * n - 2)),
          status := "failed",
          error := some (errText e),
          end_time := some (times (2 * n - 1)) }
      simp only [RecordOK] at h ⊢
      simpa using h

/-- One step of the loop when the current attempt raises and attempts
remain: the remaining run continues from the mutated record, one attempt and
one back-off delay are added. -/
theorem execAux_fail_step (beh : Nat → Except PyExc String) (times : Nat → Int)
    (n f : Nat) (t tN : ResearchTask) (e : PyExc) (he : beh n = .error e)
    (htN : tN = { t with
      start_time := some (times (2 * n - 2)), status := "failed",
      error := some (errText e), end_time := some (times (2 * n - 1)) }) :
    (execAux beh times n (f + 1 + 1) t).record =
      (execAux beh times (n + 1) (f + 1) tN).record ∧
    (execAux beh times n (f + 1 + 1) t).attempts =
      (execAux beh times (n + 1) (f + 1) tN).attempts + 1 ∧
    (execAux beh times n (f + 1 + 1) t).raised =
      (execAux beh times (n + 1) (f + 1) tN).raised ∧
    (execAux beh times n (f + 1 + 1) t).waits =
      waitExp n :: (execAux beh times (n + 1) (f + 1) tN).waits := by
  subst htN
  simp [execAux, attemptOnce, he]

/-- When every attempt in range raises, the loop uses all its fuel, ends
raised with a failed record carrying the last exception's text, and sleeps
the exponential back-off delays between attempts. -/
theorem execAux_fail (beh : Nat → Except PyExc String) (times : Nat → Int) :
    ∀ (fuel n : Nat) (t : ResearchTask),
      (∀ k, n ≤ k → k ≤ n + fuel → ∃ e, beh k = .error e) →
      (execAux beh times n (fuel + 1) t).attempts = fuel + 1 ∧
      (execAux beh times n (fuel + 1) t).raised = true ∧
      (execAux beh times n (fuel + 1) t).record.status = "failed" ∧
      (∃ e, beh (n + fuel) = .error e ∧
        (execAux beh times n (fuel + 1) t).record.error = some (errText e)) ∧
      (execAux beh times n (fuel + 1) t).waits =
        (List.range fuel).map (fun j => waitExp (n + j)) := by
  intro fuel
  induction fuel with
  | zero =>
    intro n t h
    obtain ⟨e, he⟩ := h n (le_refl n) (by omega)
    simp [execAux, attemptOnce, he]
  | succ f ih =>
    intro n t h
    obtain ⟨e, he⟩ := h n (le_refl n) (by omega)
    obtain ⟨hrec, hatt, hrai, hwai⟩ := execAux_fail_step beh times n f t _ e he rfl
    have hind := ih (n + 1)
      { t with
        start_time := some (times (2 * n - 2)),
        status := "failed",
        error := some (errText e),
        end_time := some (times (2 * n - 1)) }
      (fun k hk1 hk2 => h k (by omega) (by omega))
    refine ⟨by rw [hatt, hind.1], by rw [hrai]; exact hind.2.1,
      by rw [hrec]; exact hind.2.2.1, ?_, ?_⟩
    · obtain ⟨e2, he2, herr⟩ := hind.2.2.2.1
      refine ⟨e2, ?_, by rw [hrec]; exact herr⟩
      have h9 : n + 1 + f = n + (f + 1) := by omega
      rwa [h9] at he2
    · rw [hwai, hind.2.2.2.2]
      rw [List.range_succ_eq_map, List.map_cons, List.map_map]
      refine congrArg₂ _ (by simp) ?_
      apply List.map_congr_left
      intro j _
      simp only [Function.comp_apply]
      congr 1
      omega

/-- C2 (amended): when the collaborator raises on every attempt, execution
stops after exactly 10 attempts — the decorator's hardcoded
`stop_after_attempt(10)`, regardless of the configured `max_retries` — the
wrapped call raises, the record ends with `status = "failed"`, its
`retry_count` stays 0 (the code never increments it), and the delays slept
between attempts are `max(1, min(2^(n-1), 15))`, i.e.
`[1, 2, 4, 8, 15, 15, 15, 15, 15]`: weakly increasing and bounded between 1
and 15 time units. -/
theorem retry_exhaustion_amended (ti : TaskInput)
    (h : ∀ k, 1 ≤ k → k ≤ 10 → ∃ e, ti.beh k = .error e) :
    (executeResearch ti.beh ti.times (initTask ti)).attempts = 10 ∧
    (executeResearch ti.beh ti.times (initTask ti)).raised = true ∧
    (executeResearch ti.beh ti.times (initTask ti)).record.status = "failed" ∧
    (executeResearch ti.beh ti.times (initTask ti)).record.retry_count = 0 ∧
    (executeResearch ti.beh ti.times (initTask ti)).waits =
      [1, 2, 4, 8, 15, 15, 15, 15, 15] ∧
    (∀ w ∈ (executeResearch ti.beh ti.times (initTask ti)).waits, 1 ≤ w ∧ w ≤ 15) ∧
    List.Chain' (fun a b => a ≤ b) (executeResearch ti.beh ti.times (initTask ti)).waits := by
  have hfail := execAux_fail ti.beh ti.times 9 1 (initTask ti)
    (fun k hk1 hk2 => h k hk1 (by omega))
  have hrok := execAux_recordOK ti.beh ti.times 9 1 (initTask ti)
  have hw : (List.range 9).map (fun j => waitExp (1 + j)) =
      [1, 2, 4, 8, 15, 15, 15, 15, 15] := by decide
  refine ⟨hfail.1, hfail.2.1, hfail.2.2.1, hrok.2.2.1, ?_, ?_, ?_⟩
  · rw [show executeResearch ti.beh ti.times (initTask ti) =
      execAux ti.beh ti.times 1 (9 + 1) (initTask ti) from rfl, hfail.2.2.2.2, hw]
  · intro w hwmem
    rw [show executeResearch ti.beh ti.times (initTask ti) =
      execAux ti.beh ti.times 1 (9 + 1) (initTask ti) from rfl, hfail.2.2.2.2, hw] at hwmem
    fin_cases hwmem <;> omega
  · rw [show executeResearch ti.beh ti.times (initTask ti) =
      execAux ti.beh ti.times 1 (9 + 1) (initTask ti) from rfl, hfail.2.2.2.2, hw]
    repeat constructor

/-- C2 witness: a concrete always-failing task reaches 10 attempts with
`retry_count = 0`. -/
theorem retry_exhaustion_amended_witness :
    (∀ k, 1 ≤ k → k ≤ 10 → ∃ e, tiFail.beh k = .error e) ∧
    (executeResearch tiFail.beh tiFail.times (initTask tiFail)).attempts = 10 ∧
    (executeResearch tiFail.beh tiFail.times (initTask tiFail)).record.status = "failed" ∧
    (executeResearch tiFail.beh tiFail.times (initTask tiFail)).record.retry_count = 0 :=
  ⟨fun _ _ _ => ⟨_, rfl⟩,
   (retry_exhaustion_amended tiFail (fun _ _ _ => ⟨_, rfl⟩)).1,
   (retry_exhaustion_amended tiFail (fun _ _ _ => ⟨_, rfl⟩)).2.2.1,
   (retry_exhaustion_amended tiFail (fun _ _ _ => ⟨_, rfl⟩)).2.2.2.1⟩

/-- C2 counterexample: with a configured `max_retries = 5` (the
`--retries 5` command line), an always-failing task still runs 10 attempts
and its record's `retry_count` is 0, not 5: the claim's link to the
configured maximum is false on both counts. -/
theorem retry_exhaustion_counterexample :
    (ResearchConfig.mk 3 5 1).max_retries = 5 ∧
    (executeResearch behFail tickClock (initTask tiFail)).attempts = 10 ∧
    (executeResearch behFail tickClock (initTask tiFail)).record.retry_count = 0 ∧
    ¬ ((executeResearch behFail tickClock (initTask tiFail)).attempts =
        (ResearchConfig.mk 3 5 1).max_retries ∧
      (executeResearch behFail tickClock (initTask tiFail)).record.retry_count =
        (ResearchConfig.mk 3 5 1).max_retries) := by
  decide

/-- C3 (amended): after execution the record's status is terminal
(`completed` or `failed`) and `end_time` is set; `status == "completed"`
implies `result` is set — but `error` may also be set, left over from an
earlier failed attempt — and `status == "failed"` implies `error` is set. -/
theorem record_invariants_amended (ti : TaskInput) :
    ((executeResearch ti.beh ti.times (initTask ti)).record.status = "completed" →
      (executeResearch ti.beh ti.times (initTask ti)).record.result ≠ none) ∧
    ((executeResearch ti.beh ti.times (initTask ti)).record.status = "failed" →
      (executeResearch ti.beh ti.times (initTask ti)).record.error ≠ none) ∧
    ((executeResearch ti.beh ti.times (initTask ti)).record.status = "completed" ∨
      (executeResearch ti.beh ti.times (initTask ti)).record.status = "failed") ∧
    (executeResearch ti.beh ti.times (initTask ti)).record.end_time ≠ none := by
  have h := execAux_recordOK ti.beh ti.times 9 1 (initTask ti)
  refine ⟨fun hs => ?_, fun hs => ?_, h.2.2.2.1, ?_⟩
  · have := h.2.2.2.2.2.1 hs
    exact Option.isSome_iff_ne_none.mp this
  · have := h.2.2.2.2.2.2 hs
    exact Option.isSome_iff_ne_none.mp this
  · exact Option.isSome_iff_ne_none.mp h.2.2.2.2.1

/-- C3 witness: the amended invariants at a concrete always-failing task. -/
theorem record_invariants_amended_witness :
    (executeResearch tiFail.beh tiFail.times (initTask tiFail)).record.status = "failed" ∧
    (executeResearch tiFail.beh tiFail.times (initTask tiFail)).record.error ≠ none :=
  ⟨by decide, (record_invariants_amended tiFail).2.1 (by decide)⟩

/-- C3 counterexample: a collaborator that raises once and then succeeds
leaves a record with `status = "completed"` and a stale non-None `error` —
the claimed invariant `completed implies error is None` is false. -/
theorem record_invariants_counterexample :
    (executeResearch behFlaky tickClock { id := "t1", prompt := "p" }).record.status =
      "completed" ∧
    (executeResearch behFlaky tickClock { id := "t1", prompt := "p" }).record.error ≠ none ∧
    (executeResearch behFlaky tickClock { id := "t1", prompt := "p" }).record.error =
      some "RuntimeError: transient" := by
  decide

theorem getField_finalObj_id (r : Row) : getField (finalObj r) "id" = some (.js r.id) := rfl

theorem getField_finalObj_status (r : Row) :
    getField (finalObj r) "status" = some (.js r.status) := rfl

theorem getField_finalObj_error (r : Row) :
    getField (finalObj r) "error" = some (optS r.error) := rfl

/-- Every pending task's finished row reaches the merged result list: the
new rows are appended wholesale (or are the whole list when no previous file
exists). -/
theorem mainResults_mem (existing : Option (List Row)) (tis : List TaskInput)
    (ti : TaskInput) (hmem : ti ∈ pendingOf existing tis) :
    taskToRow (executeResearch ti.beh ti.times (initTask ti)).record ∈
      mainResults existing tis := by
  have hne : (pendingOf existing tis).isEmpty = false := by
    cases hc : pendingOf existing tis with
    | nil => rw [hc] at hmem; cases hmem
    | cons a l => rfl
  have hrow : taskToRow (executeResearch ti.beh ti.times (initTask ti)).record ∈
      (processTasks (pendingOf existing tis)).map taskToRow :=
    List.mem_map_of_mem _ (List.mem_map_of_mem _ hmem)
  unfold mainResults
  simp only [hne, Bool.false_eq_true, if_false]
  cases existing with
  | none => exact hrow
  | some ex => exact List.mem_append_right _ hrow

/-- C1: the result collection of `process_tasks` followed by the merge in
`main` contains a record for every submitted (pending) task — on exhaustion
the arity-mismatched `retry_error_callback` raises `TypeError` out of the
wrapped call and `process_tasks` appends the same mutated task object in its
except-branch, so failed tasks are never dropped — and every task whose
collaborator raised on all 10 attempts appears in the final result file with
`status = "failed"` and the last exception's error text. -/
theorem coordinator_never_drops_tasks (existing : Option (List Row)) (tis : List TaskInput)
    (ti : TaskInput) (hmem : ti ∈ pendingOf existing tis) :
    (∃ rec ∈ processTasks (pendingOf existing tis), rec.id = ti.id ∧ rec.prompt = ti.prompt) ∧
    (∃ obj ∈ finalFile existing tis, getField obj "id" = some (.js ti.id)) ∧
    ((∀ k, 1 ≤ k → k ≤ 10 → ∃ e, ti.beh k = .error e) →
      ∃ obj ∈ finalFile existing tis,
        getField obj "id" = some (.js ti.id) ∧
        getField obj "status" = some (.js "failed") ∧
        ∃ e, ti.beh 10 = .error e ∧ getField obj "error" = some (.js (errText e))) := by
  have hrok := execAux_recordOK ti.beh ti.times 9 1 (initTask ti)
  have hid : (executeResearch ti.beh ti.times (initTask ti)).record.id = ti.id := hrok.1
  have hpr : (executeResearch ti.beh ti.times (initTask ti)).record.prompt = ti.prompt :=
    hrok.2.1
  have hrowmem := mainResults_mem existing tis ti hmem
  refine ⟨?_, ?_, ?_⟩
  · exact ⟨(executeResearch ti.beh ti.times (initTask ti)).record,
      List.mem_map_of_mem _ hmem, hid, hpr⟩
  · refine ⟨finalObj (taskToRow (executeResearch ti.beh ti.times (initTask ti)).record),
      List.mem_map_of_mem _ hrowmem, ?_⟩
    rw [getField_finalObj_id]
    simp [taskToRow, hid]
  · intro hfail
    have hf := execAux_fail ti.beh ti.times 9 1 (initTask ti)
      (fun k hk1 hk2 => hfail k hk1 (by omega))
    have hst : (executeResearch ti.beh ti.times (initTask ti)).record.status = "failed" :=
      hf.2.2.1
    obtain ⟨e, he, herr⟩ := hf.2.2.2.1
    have herr2 : (executeResearch ti.beh ti.times (initTask ti)).record.error =
      some (errText e) := herr
    refine ⟨finalObj (taskToRow (executeResearch ti.beh ti.times (initTask ti)).record),
      List.mem_map_of_mem _ hrowmem, ?_, ?_, e, he, ?_⟩
    · rw [getField_finalObj_id]
      simp [taskToRow, hid]
    · rw [getField_finalObj_status]
      simp [taskToRow, hst]
    · rw [getField_finalObj_error]
      simp [taskToRow, herr2, optS]

/-- C1 witness: a single always-failing task, no previous result file — the
final file carries its failed record and error text. -/
theorem coordinator_never_drops_tasks_witness :
    tiFail ∈ pendingOf none [tiFail] ∧
    (∀ k, 1 ≤ k → k ≤ 10 → ∃ e, tiFail.beh k = .error e) ∧
    (∃ obj ∈ finalFile none [tiFail],
      getField obj "id" = some (.js tiFail.id) ∧
      getField obj "status" = some (.js "failed") ∧
      ∃ e, tiFail.beh 10 = .error e ∧ getField obj "error" = some (.js (errText e))) :=
  ⟨List.mem_singleton.mpr rfl, fun _ _ _ => ⟨_, rfl⟩,
   (coordinator_never_drops_tasks none [tiFail] tiFail (List.mem_singleton.mpr rfl)).2.2
     (fun _ _ _ => ⟨_, rfl⟩)⟩

/-- C4 (amended): the merge keeps the previous records whose id is absent
from the new ids, unchanged and in their original relative order, and then
appends ALL new records — replacements included — in completion order at the
end; new records win (a previous record whose id appears among the new ids
is removed), and nothing else appears.  Replaced entries are not updated in
place. -/
theorem merge_semantics_amended (prev new : List Row) :
    mergeResults prev (new.map Row.id) new =
      (prev.filter fun r => !((new.map Row.id).contains r.id)) ++ new ∧
    (∀ r ∈ prev, r.id ∉ new.map Row.id → r ∈ mergeResults prev (new.map Row.id) new) ∧
    (∀ nw ∈ new, nw ∈ mergeResults prev (new.map Row.id) new) ∧
    (∀ r ∈ mergeResults prev (new.map Row.id) new,
      r ∈ new ∨ (r ∈ prev ∧ r.id ∉ new.map Row.id)) := by
  refine ⟨rfl, ?_, ?_, ?_⟩
  · intro r hr hnot
    apply List.mem_append_left
    rw [List.mem_filter]
    exact ⟨hr, by simpa [List.elem_iff] using hnot⟩
  · intro nw hnw
    exact List.mem_append_right _ hnw
  · intro r hr
    rcases List.mem_append.mp hr with hl | hrr
    · right
      rw [List.mem_filter] at hl
      exact ⟨hl.1, by simpa [List.elem_iff] using hl.2⟩
    · exact Or.inl hrr

/-- C4 witness: the kept previous record and the replacing new record are
both in the concrete merged output. -/
theorem merge_semantics_amended_witness :
    rowB ∈ [rowA, rowB] ∧ rowB.id ∉ List.map Row.id [rowA2] ∧
    rowB ∈ mergeResults [rowA, rowB] (List.map Row.id [rowA2]) [rowA2] ∧
    rowA2 ∈ mergeResults [rowA, rowB] (List.map Row.id [rowA2]) [rowA2] :=
  ⟨by decide, by decide,
   (merge_semantics_amended [rowA, rowB] [rowA2]).2.1 rowB (by decide) (by decide),
   (merge_semantics_amended [rowA, rowB] [rowA2]).2.2.1 rowA2 (by decide)⟩

/-- C4 counterexample: previous `[a, b]` merged with new `[a2]` (same id
`"a"`) yields `[b, a2]` — the replacement is appended at the end — while the
claimed in-place order gives `[a2, b]`; the two disagree. -/
theorem merge_in_place_counterexample :
    mergeResults [rowA, rowB] (List.map Row.id [rowA2]) [rowA2] = [rowB, rowA2] ∧
    specMerge [rowA, rowB] [rowA2] = [rowA2, rowB] ∧
    mergeResults [rowA, rowB] (List.map Row.id [rowA2]) [rowA2] ≠
      specMerge [rowA, rowB] [rowA2] := by
  refine ⟨by decide, by decide, by decide⟩

/-- C6 (amended): every object written by `save_final_results` has exactly
the eight fields `id, prompt, status, result, error, start_time, end_time,
duration` — `retry_count` is not written — and `duration` equals
`end_time - start_time` when both timestamps are present and non-zero
(Python truthiness), and is null when either is absent. -/
theorem final_file_fields_amended (rows : List Row) :
    ∀ obj ∈ saveFinalResults rows,
      obj.map Prod.fst =
        ["id", "prompt", "status", "result", "error", "start_time", "end_time", "duration"] ∧
      ∃ r ∈ rows, obj = finalObj r ∧
        getField obj "duration" = some (optI (durationOf r.start_time r.end_time)) ∧
        (∀ s e : Int, r.start_time = some s → r.end_time = some e → s ≠ 0 → e ≠ 0 →
          getField obj "duration" = some (.ji (e - s))) ∧
        ((r.start_time = none ∨ r.end_time = none) → getField obj "duration" = some .null) := by
  intro obj hobj
  obtain ⟨r, hr, hobjr⟩ := List.mem_map.mp hobj
  subst hobjr
  refine ⟨rfl, r, hr, rfl, rfl, ?_, ?_⟩
  · intro s e hs he hs0 he0
    have hdur : durationOf r.start_time r.end_time = some (e - s) := by
      rw [hs, he]
      simp [durationOf, pyTruthyTime, hs0, he0]
    rw [show getField (finalObj r) "duration" =
      some (optI (durationOf r.start_time r.end_time)) from rfl, hdur]
    rfl
  · intro hnone
    have hdur : durationOf r.start_time r.end_time = none := by
      rcases hnone with h | h <;> rw [h] <;> simp [durationOf, pyTruthyTime]
    rw [show getField (finalObj r) "duration" =
      some (optI (durationOf r.start_time r.end_time)) from rfl, hdur]
    rfl

/-- C6 witness: a concrete written object has the eight fields and the
computed duration. -/
theorem final_file_fields_amended_witness :
    finalObj rowB ∈ saveFinalResults [rowB] ∧
    (finalObj rowB).map Prod.fst =
      ["id", "prompt", "status", "result", "error", "start_time", "end_time", "duration"] :=
  ⟨by decide, (final_file_fields_amended [rowB] (finalObj rowB) (by decide)).1⟩

/-- C6 counterexample: the object written for a concrete row has only the
eight fields — the claimed nine-field set including `retry_count` is wrong. -/
theorem final_file_fields_counterexample :
    (saveFinalResults [rowB]).map (fun o => o.map Prod.fst) =
      [["id", "prompt", "status", "result", "error", "start_time", "end_time", "duration"]] ∧
    ¬ (∀ obj ∈ saveFinalResults [rowB],
        obj.map Prod.fst =
          ["id", "prompt", "status", "result", "error", "start_time", "end_time", "duration",
            "retry_count"]) := by
  refine ⟨by decide, by decide⟩

theorem buSaveDir_inj (m a b : String) (h : buSaveDir m a = buSaveDir m b) : a = b := by
  unfold buSaveDir at h
  have h2 := congrArg String.data h
  simp only [String.data_append] at h2
  exact String.ext (List.append_cancel_left h2)

/-- C7: under the directory-presence policy a task whose save directory
already exists is skipped — no agent call happens for it — and (for distinct
task ids) exactly the tasks whose directory did not exist at the start are
executed, in order.  Directory contents play no role: the filesystem model
is only the set of existing paths. -/
theorem directory_presence_policy (modelName : String) (tasks : List (String × String))
    (dirs : List String) (hnd : (tasks.map Prod.fst).Nodup) :
    (buLoop modelName tasks dirs).agentCalls.map Prod.fst =
      (tasks.filter fun t => !(dirs.contains (buSaveDir modelName t.1))).map Prod.fst := by
  induction tasks generalizing dirs with
  | nil => rfl
  | cons t rest ih =>
    obtain ⟨f, x⟩ := t
    have hnd2 : (rest.map Prod.fst).Nodup := (List.nodup_cons.mp hnd).2
    have hfnot : f ∉ rest.map Prod.fst := (List.nodup_cons.mp hnd).1
    have hcongr : ∀ dirs2 : List String,
        rest.filter (fun t => !((buSaveDir modelName f :: dirs2).contains
          (buSaveDir modelName t.1))) =
        rest.filter (fun t => !(dirs2.contains (buSaveDir modelName t.1))) := by
      intro dirs2
      apply List.filter_congr
      intro t ht
      have hne : buSaveDir modelName t.1 ≠ buSaveDir modelName f := by
        intro heq
        exact hfnot (by
          have h1 : t.1 = f := buSaveDir_inj modelName t.1 f heq
          rw [← h1]
          exact List.mem_map_of_mem Prod.fst ht)
      simp [List.contains_cons, hne]
    simp only [buLoop]
    by_cases hc : dirs.contains (buSaveDir modelName f) = true
    · rw [if_pos hc]
      rw [ih dirs hnd2]
      have hmem : buSaveDir modelName f ∈ dirs := List.elem_iff.mp hc
      simp [List.filter_cons, hmem]
    · rw [if_neg hc]
      have hmem : buSaveDir modelName f ∉ dirs := fun hm => hc (List.elem_iff.mpr hm)
      simp only [List.map_cons, List.filter_cons]
      rw [ih (buSaveDir modelName f :: dirs) hnd2, hcongr dirs]
      simp [hmem]

/-- C7 witness: re-running with tasks `["a", "b"]` where only `"a"`'s
directory exists executes only `"b"`. -/
theorem directory_presence_policy_witness :
    (([("a", "pa"), ("b", "pb")].map Prod.fst).Nodup : Prop) ∧
    (buLoop "o3" [("a", "pa"), ("b", "pb")] [buSaveDir "o3" "a"]).agentCalls.map Prod.fst =
      ["b"] := by
  refine ⟨by decide, ?_⟩
  rw [directory_presence_policy "o3" [("a", "pa"), ("b", "pb")] [buSaveDir "o3" "a"]
    (by decide)]
  decide

/-- C10: every prompt actually handed to the browser agent is the task's
prompt with the fixed markdown-file suffix appended — never the task's
prompt itself. -/
theorem agent_prompt_has_suffix (modelName : String) (tasks : List (String × String))
    (dirs : List String) :
    ∀ c ∈ (buLoop modelName tasks dirs).agentCalls,
      ∃ t ∈ tasks, c.1 = t.1 ∧ c.2 = t.2 ++ BU_SUFFIX ∧ c.2 ≠ t.2 := by
  induction tasks generalizing dirs with
  | nil => intro c hc; cases hc
  | cons t rest ih =>
    obtain ⟨f, x⟩ := t
    intro c hc
    simp only [buLoop] at hc
    by_cases hdir : dirs.contains (buSaveDir modelName f) = true
    · rw [if_pos hdir] at hc
      obtain ⟨t2, ht2, hp⟩ := ih dirs c hc
      exact ⟨t2, List.mem_cons_of_mem _ ht2, hp⟩
    · rw [if_neg hdir] at hc
      simp only [List.mem_cons] at hc
      rcases hc with hc | hc
      · refine ⟨(f, x), List.mem_cons_self _ _, ?_, ?_, ?_⟩
        · rw [hc]
        · rw [hc]
        · rw [hc]
          intro habs
          have hlen := congrArg String.length habs
          simp only [String.length_append] at hlen
          have hsl : BU_SUFFIX.length = 64 := rfl
          omega
      · obtain ⟨t2, ht2, hp⟩ := ih (buSaveDir modelName f :: dirs) c hc
        exact ⟨t2, List.mem_cons_of_mem _ ht2, hp⟩

/-- C10 witness: the concrete executed task's agent call carries the
suffixed prompt. -/
theorem agent_prompt_has_suffix_witness :
    ("b", "pb" ++ BU_SUFFIX) ∈
      (buLoop "o3" [("a", "pa"), ("b", "pb")] [buSaveDir "o3" "a"]).agentCalls ∧
    ∃ t ∈ [(("a" : String), ("pa" : String)), ("b", "pb")],
      (("b", "pb" ++ BU_SUFFIX) : String × String).1 = t.1 ∧
      ("b", "pb" ++ BU_SUFFIX).2 = t.2 ++ BU_SUFFIX ∧
      ("b", "pb" ++ BU_SUFFIX).2 ≠ t.2 :=
  ⟨by decide,
   agent_prompt_has_suffix "o3" [("a", "pa"), ("b", "pb")] [buSaveDir "o3" "a"]
     ("b", "pb" ++ BU_SUFFIX) (by decide)⟩

theorem validEntry_iff (x : RawItem) (hx : x.folderKey.isSome = true) (f i : String) :
    validEntry x = some (f, i) ↔
      x.folderKey = some f ∧ f ≠ "" ∧ pyStrip (x.instructKey.getD "") = i ∧ i ≠ "" := by
  obtain ⟨v, hv⟩ := Option.isSome_iff_exists.mp hx
  unfold validEntry
  rw [hv]
  simp only [Option.getD_some]
  by_cases hv0 : v = ""
  · subst hv0
    simp only [beq_self_eq_true, Bool.true_or, if_true, Option.some.injEq]
    constructor
    · intro h; exact Option.noConfusion h
    · rintro ⟨hf, hfne, hstrip, hine⟩
      exact absurd hf.symm hfne
  · by_cases hi0 : pyStrip (x.instructKey.getD "") = ""
    · simp only [hi0, beq_self_eq_true, Bool.or_true, if_true, Option.some.injEq]
      constructor
      · intro h; exact Option.noConfusion h
      · rintro ⟨hf, hfne, hstrip, hine⟩
        exact absurd hstrip.symm hine
    · have hcond : ((v == "") || (pyStrip (x.instructKey.getD "") == "")) = false := by
        simp [hv0, hi0]
      simp only [hcond, Bool.false_eq_true, if_false, Option.some.injEq, Prod.mk.injEq]
      constructor
      · rintro ⟨rfl, rfl⟩
        exact ⟨rfl, hv0, rfl, hi0⟩
      · rintro ⟨hf, hfne, hstrip, hine⟩
        exact ⟨hf, hstrip⟩

/-- C8 (amended): when every entry HAS the id key, loading succeeds and the
queue holds exactly the entries with a non-empty id and a non-whitespace
prompt — entries with an empty id or an empty/whitespace-only (or missing)
prompt are dropped with a warning and do not abort the load; but an entry
missing the id key altogether raises `KeyError` inside the sort's key
function and aborts the whole load. -/
theorem load_tasks_semantics :
    (∀ raw : List RawItem, (∀ x ∈ raw, x.folderKey.isSome = true) →
      ∃ q, loadTasks raw = .ok q ∧
        ∀ f i : String, ((f, i) ∈ q ↔
          ∃ x ∈ raw, x.folderKey = some f ∧ f ≠ "" ∧
            pyStrip (x.instructKey.getD "") = i ∧ i ≠ "")) ∧
    (∀ raw : List RawItem, (∃ x ∈ raw, x.folderKey = none) →
      loadTasks raw = .error "KeyError: folder") := by
  constructor
  · intro raw h
    have hall : raw.all (fun x => x.folderKey.isSome) = true :=
      List.all_eq_true.mpr h
    refine ⟨(sortRaw raw).filterMap validEntry, ?_, ?_⟩
    · unfold loadTasks
      rw [if_pos hall]
    · intro f i
      rw [List.mem_filterMap]
      constructor
      · rintro ⟨x, hx, hval⟩
        have hxraw : x ∈ raw := (List.perm_insertionSort _ raw).mem_iff.mp hx
        exact ⟨x, hxraw, (validEntry_iff x (h x hxraw) f i).mp hval⟩
      · rintro ⟨x, hxraw, hprops⟩
        exact ⟨x, (List.perm_insertionSort _ raw).mem_iff.mpr hxraw,
          (validEntry_iff x (h x hxraw) f i).mpr hprops⟩
  · rintro raw ⟨x, hx, hnone⟩
    unfold loadTasks
    rw [if_neg]
    intro hall
    have h2 := List.all_eq_true.mp hall x hx
    rw [hnone] at h2
    cases h2

/-- C8 witness: an entry with a whitespace-only prompt is dropped while the
valid entry loads. -/
theorem load_tasks_semantics_witness :
    ∃ q, loadTasks [{ folderKey := some "b", instructKey := some "  hi  " },
      { folderKey := some "a", instructKey := some "   " }] = .ok q ∧
      ∀ f i : String, ((f, i) ∈ q ↔
        ∃ x ∈ [({ folderKey := some "b", instructKey := some "  hi  " } : RawItem),
          { folderKey := some "a", instructKey := some "   " }],
          x.folderKey = some f ∧ f ≠ "" ∧
            pyStrip (x.instructKey.getD "") = i ∧ i ≠ "") :=
  load_tasks_semantics.1 _ (by decide)

/-- C8 counterexample: an entry missing the id key is fatal — the whole load
raises `KeyError` and the remaining valid entry is NOT loaded, contradicting
the claimed drop-with-warning semantics for missing ids. -/
theorem load_missing_id_counterexample :
    loadTasks [{ folderKey := none, instructKey := some "x" },
      { folderKey := some "a", instructKey := some "do it" }] =
      .error "KeyError: folder" ∧
    ∀ q : List (String × String),
      loadTasks [{ folderKey := none, instructKey := some "x" },
        { folderKey := some "a", instructKey := some "do it" }] ≠ .ok q := by
  refine ⟨rfl, ?_⟩
  intro q h
  simp [loadTasks] at h

/-- C9: after loading, filtering and natural-key sorting, the workforce
variant keeps exactly the tasks whose zero-based index in the queue is
congruent to `WORKER_ID` modulo `N_WORKERS` (that is, 1 mod 10), in their
original order (the kept queue is a sublist); all other tasks are absent
from this instance's queue.  On twelve tasks the kept indices are 1 and
11. -/
theorem worker_sharding_semantics :
    (∀ (α : Type) (l : List α) (x : α),
      x ∈ shardTasks l ↔ ∃ i, i % N_WORKERS = WORKER_ID ∧ l[i]? = some x) ∧
    (∀ (α : Type) (l : List α), List.Sublist (shardTasks l) l) ∧
    shardTasks (List.range 12) = [1, 11] := by
  refine ⟨?_, ?_, by decide⟩
  · intro α l x
    unfold shardTasks
    simp only [List.mem_map, List.mem_filter]
    constructor
    · rintro ⟨⟨i, y⟩, ⟨hmem, hcond⟩, rfl⟩
      refine ⟨i, ?_, List.mk_mem_enum_iff_getElem?.mp hmem⟩
      simpa [N_WORKERS, WORKER_ID] using hcond
    · rintro ⟨i, hi, hget⟩
      exact ⟨(i, x), ⟨List.mk_mem_enum_iff_getElem?.mpr hget,
        by simpa [N_WORKERS, WORKER_ID] using hi⟩, rfl⟩
  · intro α l
    have h1 := List.filter_sublist (p := fun p => p.1 % N_WORKERS == WORKER_ID) l.enum
    have h2 := h1.map Prod.snd
    simpa [shardTasks, List.enum_map_snd] using h2

end VeriWeb
